import Mathlib

/-!
Shallow embedding of the linkerd2 destination server
(controller/api/destination: the `Get` / `GetProfile` handlers and their
helpers `getHostAndPort`, `parseK8sServiceName`, `hasSuffix`,
`parseContextToken`, `profileID`, `getSvcID`, `getPodByIP`,
`getIndexedPods`, `podReceivingTraffic`, `getAnnotatedOpaquePorts`).

Go strings are modelled as lists of characters; Go maps used as sets are
modelled as lists with membership via `List.contains`.  The Kubernetes
informer caches are modelled as pure index functions (the informer ByIndex
error path, which can only fire when an index name was never registered at
startup, is dropped).  External collaborators that are not part of this
repository (encoding/json unmarshalling, util.ParseContainerOpaquePorts,
watcher.SetToServerProtocol) are taken as explicit function parameters, so
every theorem quantifies over their behaviour.
-/

/-- A Go string, as the list of its characters. -/
abbrev GoString := List Char

deriving instance DecidableEq for Except

/-- Go strings.Split with a one-character separator: the maximal
separator-free runs, in order.  Split("", sep) = [""] and a separator at the
edge yields an empty field, exactly as in Go. -/
def splitOn (sep : Char) : GoString → List GoString
  | [] => [[]]
  | a :: rest =>
    let r := splitOn sep rest
    if a = sep then [] :: r else (a :: r.headD []) :: r.tail

/-- Joins fields with the separator: the left inverse of `splitOn`. -/
def joinSep (sep : Char) : List GoString → GoString
  | [] => []
  | [x] => x
  | x :: xs => x ++ sep :: joinSep sep xs

/-- Is the character an ASCII decimal digit. -/
def isDigitCh (c : Char) : Bool := decide (48 ≤ c.toNat ∧ c.toNat ≤ 57)

/-- Numeric value of an ASCII digit. -/
def digitVal (c : Char) : Nat := c.toNat - 48

/-- The ASCII digit for a value below ten. -/
def digitChar (d : Nat) : Char := Char.ofNat (48 + d)

/-- Accumulating decimal parse over a run of characters; fails on any
non-digit. -/
def parseDigitsAux (acc : Nat) : GoString → Option Nat
  | [] => some acc
  | c :: rest => if isDigitCh c then parseDigitsAux (acc * 10 + digitVal c) rest else none

/-- Decimal parse of a nonempty all-digit string (the digit phase shared by
strconv.Atoi and strconv.ParseUint); arbitrary precision, since every use
below range-checks the value against a bound far under the Go overflow
cutoff. -/
def parseDigits (s : GoString) : Option Nat :=
  match s with
  | [] => none
  | _ => parseDigitsAux 0 s

/-- Go strconv.Atoi: an optional single sign followed by a nonempty run of
decimal digits. -/
def strconv_Atoi (s : GoString) : Option Int :=
  match s with
  | [] => none
  | c :: rest =>
    if c = '+' then (parseDigits rest).map Int.ofNat
    else if c = '-' then (parseDigits rest).map fun n => -(n : Int)
    else (parseDigits (c :: rest)).map Int.ofNat

/-- Fuel-driven decimal rendering of a natural number (digits of n, most
significant first); the fuel only needs to exceed the digit count and is
fixed at n+1 by `natToString`. -/
def natToStringAux : Nat → Nat → GoString
  | 0, _ => []
  | fuel + 1, n =>
    if n < 10 then [digitChar n]
    else natToStringAux fuel (n / 10) ++ [digitChar (n % 10)]

/-- Go strconv.Itoa restricted to naturals, and the port rendering used by
fmt.Sprintf("%d"). -/
def natToString (n : Nat) : GoString := natToStringAux (n + 1) n

/-- The parsed authority: host and port. -/
structure HostPort where
  host : GoString
  port : Nat
deriving DecidableEq, Repr

/-- getHostAndPort: split the authority once on a colon; more than one colon
is an error; a missing port defaults to 80; a present port must satisfy
Atoi and lie in [1, 65535]. -/
def getHostAndPort (authority : GoString) : Option HostPort :=
  match splitOn ':' authority with
  | [host] => some ⟨host, 80⟩
  | [host, portStr] =>
    match strconv_Atoi portStr with
    | none => none
    | some p => if p ≤ 0 ∨ 65535 < p then none else some ⟨host, p.toNat⟩
  | _ => none

/-- watcher.ServiceID: namespace and name of a cluster service. -/
structure ServiceID where
  name : GoString
  ns : GoString
deriving DecidableEq, Repr

/-- The label "svc". -/
def svcLabel : GoString := ['s', 'v', 'c']

/-- hasSuffix: whether the label list ends with the given suffix (the Go
loop compares the last suffix-length entries pointwise, which for equal
lengths is list equality). -/
def hasSuffix (slice suffix : List GoString) : Bool :=
  if slice.length < suffix.length then false
  else decide (slice.drop (slice.length - suffix.length) = suffix)

/-- parseK8sServiceName: destructure a Kubernetes service hostname.  The
dot-separated labels must end in "svc" followed by the cluster-domain
labels; two leading labels give (service, namespace) with an empty instance
ID, three give (instance, service, namespace); anything else errors. -/
def parseK8sServiceName (fqdn clusterDomain : GoString) : Option (ServiceID × GoString) :=
  let labels := splitOn '.' fqdn
  let suffix := svcLabel :: splitOn '.' clusterDomain
  if hasSuffix labels suffix then
    if labels.length = 2 + suffix.length then
      some (⟨labels.getD 0 [], labels.getD 1 []⟩, [])
    else if labels.length = 3 + suffix.length then
      some (⟨labels.getD 1 [], labels.getD 2 []⟩, labels.getD 0 [])
    else none
  else none

/-- The destination context token: namespace and node name. -/
structure ContextToken where
  ns : GoString
  nodeName : GoString
deriving DecidableEq, Repr

/-- The zero-valued context token. -/
def emptyToken : ContextToken := ⟨[], []⟩

/-- The literal "ns". -/
def nsKey : GoString := ['n', 's']

/-- parseContextToken: try JSON unmarshalling (encoding/json is outside this
repository, so the decoder is a parameter); on failure fall back to the
legacy "ns:namespace" shape, and otherwise degrade to the empty token.  The
function is total: no input fails the RPC. -/
def parseContextToken (unmarshal : GoString → Option ContextToken) (token : GoString) :
    ContextToken :=
  match unmarshal token with
  | some t => t
  | none =>
    match splitOn ':' token with
    | [p0, p1] => if p0 = nsKey then ⟨p1, []⟩ else emptyToken
    | _ => emptyToken

/-- watcher.ProfileID. -/
structure ProfileID where
  name : GoString
  ns : GoString
deriving DecidableEq, Repr

/-- fmt.Sprintf("%s.%s.svc.%s", name, namespace, clusterDomain). -/
def fqnOf (service : ServiceID) (clusterDomain : GoString) : GoString :=
  service.name ++ '.' :: service.ns ++ '.' :: svcLabel ++ '.' :: clusterDomain

/-- profileID: re-parse the authority, build the fully qualified name, and
use the caller namespace from the context token when it is nonempty, else
the service namespace. -/
def profileID (authority : GoString) (ctxToken : ContextToken) (clusterDomain : GoString) :
    Option ProfileID :=
  match getHostAndPort authority with
  | none => none
  | some hp =>
    match parseK8sServiceName hp.host clusterDomain with
    | none => none
    | some (service, _) =>
      some { name := fqnOf service clusterDomain,
             ns := if ctxToken.ns ≠ [] then ctxToken.ns else service.ns }

/-- An IPv4 address (net.ParseIP also accepts IPv6 literals; the model
restricts attention to the IPv4 family, which is all the claims depend on:
each claim treats the parsed-as-IP test as a black box). -/
structure IPv4 where
  a : Nat
  b : Nat
  c : Nat
  d : Nat
deriving DecidableEq, Repr

/-- One dotted-quad field: decimal, at most 255, no leading zero. -/
def parseIPv4Field (s : GoString) : Option Nat :=
  match s with
  | [] => none
  | [c] => if isDigitCh c then some (digitVal c) else none
  | c :: rest =>
    if c = '0' then none
    else
      match parseDigits (c :: rest) with
      | none => none
      | some n => if n ≤ 255 then some n else none

/-- net.ParseIP on an IPv4 dotted-quad literal. -/
def net_ParseIP (s : GoString) : Option IPv4 :=
  match splitOn '.' s with
  | [a, b, c, d] =>
    match parseIPv4Field a, parseIPv4Field b, parseIPv4Field c, parseIPv4Field d with
    | some x, some y, some z, some w => some ⟨x, y, z, w⟩
    | _, _, _, _ => none
  | _ => none

/-- ip.String() for an IPv4 address. -/
def ipString (ip : IPv4) : GoString :=
  natToString ip.a ++ '.' :: natToString ip.b ++ '.' :: natToString ip.c
    ++ '.' :: natToString ip.d

/-- A pod container (only its name matters to the external opaque-ports
annotation parser). -/
structure Container where
  name : GoString
deriving DecidableEq, Repr

/-- The phase string of a terminated-successfully pod. -/
def podSucceededPhase : GoString := ['S', 'u', 'c', 'c', 'e', 'e', 'd', 'e', 'd']

/-- The phase string of a failed pod. -/
def podFailedPhase : GoString := ['F', 'a', 'i', 'l', 'e', 'd']

/-- A corev1.Pod, restricted to the fields the destination server reads.
Annotations are an association list mirroring the Kubernetes string map;
deletionTimestamp records only whether the field is set. -/
structure Pod where
  ns : GoString
  name : GoString
  phase : GoString
  deletionTimestamp : Bool
  annotations : List (GoString × GoString)
  containers : List Container
deriving DecidableEq, Repr

/-- A corev1.Service, restricted to its identity. -/
structure Service where
  ns : GoString
  name : GoString
deriving DecidableEq, Repr

/-- The name of the host-IP pod index (watcher.HostIPIndex; the constant
lives outside this repository, its value is immaterial as long as the two
index names differ). -/
def hostIPIndexName : GoString := ['h', 'o', 's', 't', 'I', 'P']

/-- The name of the pod-IP index (watcher.PodIPIndex). -/
def podIPIndexName : GoString := ['p', 'o', 'd', 'I', 'P']

/-- The observed informer caches: the cluster-IP index over services and the
named indices over pods, as pure functions from index key to the indexed
objects. -/
structure K8sAPI where
  svcByClusterIP : GoString → List Service
  podsByIndex : GoString → GoString → List Pod

/-- gRPC codes the modelled paths can produce. -/
inductive GrpcCode
  | invalidArgument
  | failedPrecondition
  | unknown
deriving DecidableEq, Repr

/-- getSvcID: the service a cluster IP maps to.  More than one indexed
service is a FailedPrecondition conflict; none is a clean miss. -/
def getSvcID (api : K8sAPI) (clusterIP : GoString) : Except GrpcCode (Option ServiceID) :=
  let services := api.svcByClusterIP clusterIP
  if 1 < services.length then .error .failedPrecondition
  else
    match services with
    | [] => .ok none
    | s :: _ => .ok (some ⟨s.name, s.ns⟩)

/-- podReceivingTraffic: the pod is neither terminated (Succeeded or Failed)
nor terminating (deletionTimestamp set). -/
def podReceivingTraffic (pod : Pod) : Bool :=
  let podTerminated := pod.phase == podSucceededPhase || pod.phase == podFailedPhase
  let podTerminating := pod.deletionTimestamp
  !podTerminating && !podTerminated

/-- getIndexedPods: read the named pod index and drop, at read time, every
pod that is not receiving traffic. -/
def getIndexedPods (api : K8sAPI) (indexName key : GoString) : List Pod :=
  (api.podsByIndex indexName key).filter podReceivingTraffic

/-- getPodByIP: first the host network under the key "ip:port" (a unique
match wins, several conflict), then the pod network under the bare IP with
the same discipline, else a clean miss. -/
def getPodByIP (api : K8sAPI) (podIP : GoString) (port : Nat) :
    Except GrpcCode (Option Pod) :=
  let addr := podIP ++ ':' :: natToString port
  match getIndexedPods api hostIPIndexName addr with
  | [p] => .ok (some p)
  | _ :: _ :: _ => .error .failedPrecondition
  | [] =>
    match getIndexedPods api podIPIndexName podIP with
    | [p] => .ok (some p)
    | _ :: _ :: _ => .error .failedPrecondition
    | [] => .ok none

/-- labels.ProxyOpaquePortsAnnotation, "config.linkerd.io/opaque-ports". -/
def opaquePortsAnnotationKey : GoString :=
  ['c', 'o', 'n', 'f', 'i', 'g', '.', 'l', 'i', 'n', 'k', 'e', 'r', 'd', '.', 'i', 'o',
   '/', 'o', 'p', 'a', 'q', 'u', 'e', '-', 'p', 'o', 'r', 't', 's']

/-- Association-list lookup standing in for the Kubernetes annotation map. -/
def lookupAnnotation : List (GoString × GoString) → GoString → Option GoString
  | [], _ => none
  | (k, v) :: rest, key => if k = key then some v else lookupAnnotation rest key

/-- strconv.ParseUint(s, 10, 32): nonempty digits, value below 2^32. -/
def parsePortU32 (s : GoString) : Option Nat :=
  match parseDigits s with
  | none => none
  | some n => if n < 4294967296 then some n else none

/-- getAnnotatedOpaquePorts: a nil pod or an unannotated pod keeps the
default set; an empty annotation yields the empty set; otherwise every
port string produced by util.ParseContainerOpaquePorts (external, hence the
parameter) must satisfy ParseUint. -/
def getAnnotatedOpaquePorts (parsePorts : GoString → List Container → List GoString)
    (pod : Option Pod) (defaults : List Nat) : Option (List Nat) :=
  match pod with
  | none => some defaults
  | some p =>
    match lookupAnnotation p.annotations opaquePortsAnnotationKey with
    | none => some defaults
    | some ann =>
      if ann = [] then some []
      else (parsePorts ann p.containers).mapM parsePortU32

/-- The observable outcome of a `Get` call: which InvalidArgument branch
fired, or the endpoints subscription the handler installs (the only path on
which the endpoint translator is subscribed), carrying the node name the
translator was built with. -/
inductive GetOutcome
  | invalidAuthority
  | ipQuery
  | invalidService
  | subscribe (nodeName : GoString) (service : ServiceID) (port : Nat) (instanceID : GoString)
deriving DecidableEq, Repr

/-- The `Get` handler (server.Get): parse the context token when nonempty
(only its nodeName reaches the endpoint translator), parse the authority,
reject literal IPs, destructure the service name, and otherwise subscribe. -/
def serverGet (unmarshal : GoString → Option ContextToken)
    (clusterDomain path rawToken : GoString) : GetOutcome :=
  let token := if rawToken = [] then emptyToken else parseContextToken unmarshal rawToken
  match getHostAndPort path with
  | none => .invalidAuthority
  | some hp =>
    match net_ParseIP hp.host with
    | some _ => .ipQuery
    | none =>
      match parseK8sServiceName hp.host clusterDomain with
      | none => .invalidService
      | some (service, instanceID) => .subscribe token.nodeName service hp.port instanceID

/-- What the IP-to-pod arm of `GetProfile` does: the endpoint placed in the
profile message (the pod it was built from, when any), the UpdateProtocol
calls the handler itself performs (each is one emitted profile message), and
the Server-watcher subscription if one is installed. -/
structure PodProfileResult where
  endpoint : Option Pod
  updates : List Bool
  serverSub : Option (Pod × Nat)
deriving DecidableEq, Repr

/-- The subscriptions assembled for a named (or IP-to-service) profile
lookup: the profile translator parameters, the opaque-ports subscription
key, the optional primary profile subscription, and the unconditional
secondary one. -/
structure NameFlow where
  fqn : GoString
  port : Nat
  opaqueSub : ServiceID
  primarySub : Option ProfileID
  secondarySub : ProfileID
deriving DecidableEq, Repr

/-- The observable outcome of a `GetProfile` call. -/
inductive ProfileOutcome
  | errInvalidAuthority
  | errInvalidService
  | errLookup (c : GrpcCode)
  | errOpaquePorts
  | errProfileID
  | podFlow (r : PodProfileResult)
  | nameFlow (f : NameFlow)
  | hostnameFlow (hostname : GoString) (service : ServiceID) (port : Nat)
deriving DecidableEq, Repr

/-- GetProfile lines 212-248: the pod (possibly absent) found for an IP.
The opaque-ports set decides everything: a member port emits opaque=true
once with no Server subscription; an absent pod emits opaque=false once; a
present pod emits the discovered protocol bit (watcher.SetToServerProtocol
is external, hence the addressOpaque parameter) and subscribes the
translator to the Server watcher. -/
def podTail (parsePorts : GoString → List Container → List GoString)
    (addressOpaque : Pod → Nat → Bool) (defaults : List Nat)
    (pod : Option Pod) (port : Nat) : ProfileOutcome :=
  match getAnnotatedOpaquePorts parsePorts pod defaults with
  | none => .errOpaquePorts
  | some opaquePorts =>
    if opaquePorts.contains port then .podFlow ⟨pod, [true], none⟩
    else
      match pod with
      | none => .podFlow ⟨none, [false], none⟩
      | some p => .podFlow ⟨some p, [addressOpaque p port], some (p, port)⟩

/-- GetProfile lines 300-362: the composite listener stack for a named
profile.  The opaque-ports adaptor subscribes under the service; a nonempty
raw context token adds a primary subscription under the caller-scoped
profile ID; the secondary subscription under the untagged profile ID is
unconditional. -/
def nameTail (unmarshal : GoString → Option ContextToken)
    (clusterDomain rawToken : GoString) (service : ServiceID) (fqn : GoString)
    (port : Nat) : ProfileOutcome :=
  if rawToken ≠ [] then
    let ctxToken := parseContextToken unmarshal rawToken
    match profileID fqn ctxToken clusterDomain with
    | none => .errProfileID
    | some primary =>
      match profileID fqn emptyToken clusterDomain with
      | none => .errProfileID
      | some secondary => .nameFlow ⟨fqn, port, service, some primary, secondary⟩
  else
    match profileID fqn emptyToken clusterDomain with
    | none => .errProfileID
    | some secondary => .nameFlow ⟨fqn, port, service, none, secondary⟩

/-- The `GetProfile` handler (server.GetProfile): parse the authority; for a
literal IP resolve IP-to-service then IP-to-pod; for a name destructure it,
diverting instance-ID hostnames to the per-endpoint path; both the found
service and the plain name share the named-profile tail. -/
def serverGetProfile (unmarshal : GoString → Option ContextToken)
    (parsePorts : GoString → List Container → List GoString)
    (addressOpaque : Pod → Nat → Bool) (defaults : List Nat) (api : K8sAPI)
    (clusterDomain path rawToken : GoString) : ProfileOutcome :=
  match getHostAndPort path with
  | none => .errInvalidAuthority
  | some hp =>
    match net_ParseIP hp.host with
    | some ip =>
      match getSvcID api (ipString ip) with
      | .error c => .errLookup c
      | .ok (some svcID) =>
        nameTail unmarshal clusterDomain rawToken svcID (fqnOf svcID clusterDomain) hp.port
      | .ok none =>
        match getPodByIP api (ipString ip) hp.port with
        | .error c => .errLookup c
        | .ok pod => podTail parsePorts addressOpaque defaults pod hp.port
    | none =>
      match parseK8sServiceName hp.host clusterDomain with
      | none => .errInvalidService
      | some (service, hostname) =>
        if hostname ≠ [] then .hostnameFlow hostname service hp.port
        else nameTail unmarshal clusterDomain rawToken service hp.host hp.port

/-! ## Properties of the string helpers -/

theorem splitOn_nil (c : Char) : splitOn c [] = [[]] := rfl

theorem splitOn_cons (c a : Char) (rest : GoString) :
    splitOn c (a :: rest) =
      if a = c then [] :: splitOn c rest
      else (a :: (splitOn c rest).headD []) :: (splitOn c rest).tail := rfl

theorem splitOn_ne_nil (c : Char) (s : GoString) : splitOn c s ≠ [] := by
  cases s with
  | nil => simp [splitOn_nil]
  | cons a rest =>
    rw [splitOn_cons]
    split <;> simp

theorem splitOn_eq_cons (c : Char) (s : GoString) :
    ∃ h t, splitOn c s = h :: t := by
  rcases hr : splitOn c s with _ | ⟨h, t⟩
  · exact absurd hr (splitOn_ne_nil c s)
  · exact ⟨h, t, rfl⟩

theorem splitOn_of_not_mem {c : Char} {s : GoString} (h : c ∉ s) : splitOn c s = [s] := by
  induction s with
  | nil => rfl
  | cons a rest ih =>
    simp only [List.mem_cons, not_or] at h
    rw [splitOn_cons, if_neg (fun e => h.1 e.symm), ih h.2]
    rfl

theorem splitOn_append {c : Char} {xs : GoString} (ys : GoString) (h : c ∉ xs) :
    splitOn c (xs ++ c :: ys) = xs :: splitOn c ys := by
  induction xs with
  | nil => simp [splitOn_cons]
  | cons a rest ih =>
    simp only [List.mem_cons, not_or] at h
    rw [List.cons_append, splitOn_cons, if_neg (fun e => h.1 e.symm), ih h.2]
    rfl

theorem not_mem_of_mem_splitOn {c : Char} {s x : GoString}
    (hx : x ∈ splitOn c s) : c ∉ x := by
  induction s generalizing x with
  | nil =>
    rw [splitOn_nil] at hx
    simp only [List.mem_singleton] at hx
    subst hx
    simp
  | cons a rest ih =>
    rw [splitOn_cons] at hx
    by_cases hac : a = c
    · rw [if_pos hac] at hx
      rcases List.mem_cons.1 hx with h | h
      · subst h; simp
      · exact ih h
    · rw [if_neg hac] at hx
      obtain ⟨h0, t, ht⟩ := splitOn_eq_cons c rest
      rw [ht] at hx
      simp only [List.headD_cons, List.tail_cons] at hx
      rcases List.mem_cons.1 hx with h | h
      · subst h
        intro hc
        rcases List.mem_cons.1 hc with h | h
        · exact hac h.symm
        · exact ih (x := h0) (by rw [ht]; exact List.mem_cons_self h0 t) h
      · exact ih (by rw [ht]; exact List.mem_cons_of_mem h0 h)

theorem joinSep_cons (c : Char) (x : GoString) {ts : List GoString} (h : ts ≠ []) :
    joinSep c (x :: ts) = x ++ c :: joinSep c ts := by
  cases ts with
  | nil => exact absurd rfl h
  | cons y ys => rfl

theorem joinSep_splitOn (c : Char) (s : GoString) : joinSep c (splitOn c s) = s := by
  induction s with
  | nil => rfl
  | cons a rest ih =>
    rw [splitOn_cons]
    by_cases hac : a = c
    · rw [if_pos hac, joinSep_cons c [] (splitOn_ne_nil c rest), ih, hac]
      rfl
    · rw [if_neg hac]
      obtain ⟨h0, t, ht⟩ := splitOn_eq_cons c rest
      rw [ht]
      rw [ht] at ih
      simp only [List.headD_cons, List.tail_cons]
      cases t with
      | nil =>
        simp only [joinSep] at ih ⊢
        rw [ih]
      | cons t0 ts =>
        rw [joinSep_cons c (a :: h0) (by simp), List.cons_append]
        rw [joinSep_cons c h0 (by simp)] at ih
        rw [← ih]

theorem length_splitOn (c : Char) (s : GoString) :
    (splitOn c s).length = s.count c + 1 := by
  induction s with
  | nil => simp [splitOn_nil]
  | cons a rest ih =>
    rw [splitOn_cons]
    by_cases hac : a = c
    · rw [if_pos hac]
      subst hac
      simp only [List.length_cons, ih, List.count_cons, beq_self_eq_true, if_true]
    · rw [if_neg hac]
      obtain ⟨h0, t, ht⟩ := splitOn_eq_cons c rest
      rw [ht]
      rw [ht] at ih
      simp only [List.length_cons, List.tail_cons, List.count_cons] at ih ⊢
      have hbe : (a == c) = false := beq_eq_false_iff_ne.2 hac
      rw [hbe]
      simp only [Bool.false_eq_true, if_false]
      omega

theorem eq_of_splitOn_eq_singleton {c : Char} {s x : GoString}
    (h : splitOn c s = [x]) : s = x ∧ c ∉ x := by
  refine ⟨?_, not_mem_of_mem_splitOn (by rw [h]; exact List.mem_singleton.2 rfl)⟩
  have hj := joinSep_splitOn c s
  rw [h] at hj
  exact hj.symm

theorem eq_of_splitOn_eq_pair {c : Char} {s x y : GoString}
    (h : splitOn c s = [x, y]) : s = x ++ c :: y ∧ c ∉ x ∧ c ∉ y := by
  refine ⟨?_, not_mem_of_mem_splitOn (by rw [h]; simp),
    not_mem_of_mem_splitOn (by rw [h]; simp)⟩
  have hj := joinSep_splitOn c s
  rw [h] at hj
  exact hj.symm

/-! ## Properties of decimal parsing and rendering -/

theorem digitChar_isDigit {d : Nat} (h : d < 10) : isDigitCh (digitChar d) = true := by
  interval_cases d <;> decide

theorem digitVal_digitChar {d : Nat} (h : d < 10) : digitVal (digitChar d) = d := by
  interval_cases d <;> decide

theorem parseDigitsAux_cons (acc : Nat) (c : Char) (rest : GoString) :
    parseDigitsAux acc (c :: rest) =
      if isDigitCh c then parseDigitsAux (acc * 10 + digitVal c) rest else none := rfl

theorem parseDigitsAux_append (acc : Nat) (xs ys : GoString) :
    parseDigitsAux acc (xs ++ ys) =
      (parseDigitsAux acc xs).bind fun a => parseDigitsAux a ys := by
  induction xs generalizing acc with
  | nil => rfl
  | cons c rest ih =>
    rw [List.cons_append, parseDigitsAux_cons, parseDigitsAux_cons]
    by_cases h : isDigitCh c
    · rw [if_pos h, if_pos h, ih]
    · rw [if_neg h, if_neg h]
      rfl


theorem natToStringAux_succ (f n : Nat) :
    natToStringAux (f + 1) n =
      if n < 10 then [digitChar n]
      else natToStringAux f (n / 10) ++ [digitChar (n % 10)] := rfl

theorem parseDigitsAux_natToStringAux {f n : Nat} (h : n < f) (acc : Nat) :
    parseDigitsAux acc (natToStringAux f n) =
      some (acc * 10 ^ (natToStringAux f n).length + n) := by
  induction f generalizing n acc with
  | zero => omega
  | succ f ih =>
    by_cases h10 : n < 10
    · rw [natToStringAux_succ, if_pos h10]
      simp [parseDigitsAux, digitChar_isDigit h10, digitVal_digitChar h10]
    · have hd : n / 10 < f := by
        have := Nat.div_lt_self (show 0 < n by omega) (show 1 < 10 by omega)
        omega
      have hm : n % 10 < 10 := Nat.mod_lt _ (by omega)
      rw [natToStringAux_succ, if_neg h10, parseDigitsAux_append, ih hd]
      simp only [Option.some_bind, parseDigitsAux, digitChar_isDigit hm, if_true,
        digitVal_digitChar hm, List.length_append, List.length_singleton]
      congr 1
      have hdm := Nat.div_add_mod n 10
      set L := (natToStringAux f (n / 10)).length
      calc (acc * 10 ^ L + n / 10) * 10 + n % 10
          = acc * (10 ^ L * 10) + (10 * (n / 10) + n % 10) := by ring
        _ = acc * 10 ^ (L + 1) + n := by rw [pow_succ, hdm]

theorem natToString_ne_nil (n : Nat) : natToString n ≠ [] := by
  rw [natToString, natToStringAux_succ]
  split <;> simp

theorem parseDigits_natToString (n : Nat) : parseDigits (natToString n) = some n := by
  have h := parseDigitsAux_natToStringAux (f := n + 1) (n := n) (by omega) 0
  obtain ⟨c, t, hct⟩ := List.exists_cons_of_ne_nil (natToString_ne_nil n)
  have hpd : parseDigits (natToString n) = parseDigitsAux 0 (natToString n) := by
    rw [hct]
    rfl
  rw [hpd]
  simpa using h

theorem natToString_digits {n : Nat} : ∀ c ∈ natToString n, isDigitCh c = true := by
  rw [natToString]
  generalize hf : n + 1 = f
  have hnf : n < f := by omega
  clear hf
  induction f generalizing n with
  | zero => omega
  | succ f ih =>
    intro c hc
    rw [natToStringAux_succ] at hc
    by_cases h10 : n < 10
    · rw [if_pos h10] at hc
      simp only [List.mem_singleton] at hc
      subst hc
      exact digitChar_isDigit h10
    · rw [if_neg h10] at hc
      have hd : n / 10 < f := by
        have := Nat.div_lt_self (show 0 < n by omega) (show 1 < 10 by omega)
        omega
      rcases List.mem_append.1 hc with h1 | h1
      · exact ih hd c h1
      · simp only [List.mem_singleton] at h1
        subst h1
        exact digitChar_isDigit (Nat.mod_lt _ (by omega))

theorem strconv_Atoi_natToString (n : Nat) :
    strconv_Atoi (natToString n) = some (n : Int) := by
  obtain ⟨c, t, hct⟩ := List.exists_cons_of_ne_nil (natToString_ne_nil n)
  have hdig : isDigitCh c = true :=
    natToString_digits c (by rw [hct]; exact List.mem_cons_self c t)
  have hplus : ¬(c = '+') := by
    intro e
    rw [e] at hdig
    exact absurd hdig (by decide)
  have hminus : ¬(c = '-') := by
    intro e
    rw [e] at hdig
    exact absurd hdig (by decide)
  rw [hct, strconv_Atoi, if_neg hplus, if_neg hminus, ← hct, parseDigits_natToString]
  rfl

/-! ## Evaluation and inversion lemmas for the authority parsers -/

theorem getHostAndPort_eq_single {path x : GoString} (hs : splitOn ':' path = [x]) :
    getHostAndPort path = some ⟨x, 80⟩ := by
  unfold getHostAndPort
  rw [hs]

theorem getHostAndPort_eq_pair {path x y : GoString} (hs : splitOn ':' path = [x, y]) :
    getHostAndPort path =
      match strconv_Atoi y with
      | none => none
      | some p => if p ≤ 0 ∨ 65535 < p then none else some ⟨x, p.toNat⟩ := by
  unfold getHostAndPort
  rw [hs]

theorem getHostAndPort_eq_many {path : GoString} {x y z : GoString} {rest : List GoString}
    (hs : splitOn ':' path = x :: y :: z :: rest) :
    getHostAndPort path = none := by
  unfold getHostAndPort
  rw [hs]

theorem getHostAndPort_of_not_mem {path : GoString} (h : ':' ∉ path) :
    getHostAndPort path = some ⟨path, 80⟩ :=
  getHostAndPort_eq_single (splitOn_of_not_mem h)

theorem getHostAndPort_inv {path : GoString} {hp : HostPort}
    (h : getHostAndPort path = some hp) :
    (splitOn ':' path = [hp.host] ∧ hp.port = 80) ∨
      ∃ (portStr : GoString) (n : Int), splitOn ':' path = [hp.host, portStr] ∧
        strconv_Atoi portStr = some n ∧ 1 ≤ n ∧ n ≤ 65535 ∧ hp.port = n.toNat := by
  rcases hs : splitOn ':' path with _ | ⟨x, _ | ⟨y, _ | ⟨z, rest⟩⟩⟩
  · exact absurd hs (splitOn_ne_nil ':' path)
  · rw [getHostAndPort_eq_single hs] at h
    obtain rfl : (⟨x, 80⟩ : HostPort) = hp := Option.some.inj h
    exact Or.inl ⟨rfl, rfl⟩
  · rw [getHostAndPort_eq_pair hs] at h
    rcases ha : strconv_Atoi y with _ | n
    · rw [ha] at h
      exact Option.noConfusion h
    · rw [ha] at h
      have hif : (if n ≤ 0 ∨ 65535 < n then none
          else some (⟨x, n.toNat⟩ : HostPort)) = some hp := h
      by_cases hr : n ≤ 0 ∨ 65535 < n
      · rw [if_pos hr] at hif
        cases hif
      · rw [if_neg hr] at hif
        obtain rfl : (⟨x, n.toNat⟩ : HostPort) = hp := Option.some.inj hif
        exact Or.inr ⟨y, n, rfl, ha, by omega, by omega, rfl⟩
  · rw [getHostAndPort_eq_many hs] at h
    cases h

theorem getHostAndPort_host_no_colon {path : GoString} {hp : HostPort}
    (h : getHostAndPort path = some hp) : ':' ∉ hp.host := by
  rcases getHostAndPort_inv h with ⟨hs, _⟩ | ⟨portStr, n, hs, _⟩ <;>
    exact not_mem_of_mem_splitOn (by rw [hs]; simp)


theorem parseK8sServiceName_def (fqdn clusterDomain : GoString) :
    parseK8sServiceName fqdn clusterDomain =
      if hasSuffix (splitOn '.' fqdn) (svcLabel :: splitOn '.' clusterDomain) then
        if (splitOn '.' fqdn).length = 2 + (svcLabel :: splitOn '.' clusterDomain).length then
          some (⟨(splitOn '.' fqdn).getD 0 [], (splitOn '.' fqdn).getD 1 []⟩, [])
        else if (splitOn '.' fqdn).length =
            3 + (svcLabel :: splitOn '.' clusterDomain).length then
          some (⟨(splitOn '.' fqdn).getD 1 [], (splitOn '.' fqdn).getD 2 []⟩,
            (splitOn '.' fqdn).getD 0 [])
        else none
      else none := rfl

theorem hasSuffix_append (pre suffix : List GoString) :
    hasSuffix (pre ++ suffix) suffix = true := by
  unfold hasSuffix
  rw [if_neg (by simp only [List.length_append]; omega)]
  have hlen : (pre ++ suffix).length - suffix.length = pre.length := by
    simp only [List.length_append]
    omega
  rw [hlen, List.drop_left]
  simp

theorem parseK8sServiceName_two {fqdn clusterDomain s n : GoString}
    (h : splitOn '.' fqdn = s :: n :: svcLabel :: splitOn '.' clusterDomain) :
    parseK8sServiceName fqdn clusterDomain = some (⟨s, n⟩, []) := by
  have hsfx : hasSuffix (s :: n :: svcLabel :: splitOn '.' clusterDomain)
      (svcLabel :: splitOn '.' clusterDomain) = true :=
    hasSuffix_append [s, n] (svcLabel :: splitOn '.' clusterDomain)
  rw [parseK8sServiceName_def, h, if_pos hsfx,
    if_pos (by simp only [List.length_cons]; omega)]
  rfl

theorem parseK8sServiceName_three {fqdn clusterDomain i s n : GoString}
    (h : splitOn '.' fqdn = i :: s :: n :: svcLabel :: splitOn '.' clusterDomain) :
    parseK8sServiceName fqdn clusterDomain = some (⟨s, n⟩, i) := by
  have hsfx : hasSuffix (i :: s :: n :: svcLabel :: splitOn '.' clusterDomain)
      (svcLabel :: splitOn '.' clusterDomain) = true :=
    hasSuffix_append [i, s, n] (svcLabel :: splitOn '.' clusterDomain)
  rw [parseK8sServiceName_def, h, if_pos hsfx,
    if_neg (by simp only [List.length_cons]; omega),
    if_pos (by simp only [List.length_cons]; omega)]
  rfl

theorem parseK8sServiceName_inv {fqdn clusterDomain : GoString} {r : ServiceID × GoString}
    (h : parseK8sServiceName fqdn clusterDomain = some r) :
    (∃ s n, splitOn '.' fqdn = s :: n :: svcLabel :: splitOn '.' clusterDomain ∧
        r = (⟨s, n⟩, [])) ∨
    (∃ i s n, splitOn '.' fqdn = i :: s :: n :: svcLabel :: splitOn '.' clusterDomain ∧
        r = (⟨s, n⟩, i)) := by
  rw [parseK8sServiceName_def] at h
  by_cases hsfx : hasSuffix (splitOn '.' fqdn) (svcLabel :: splitOn '.' clusterDomain) = true
  case neg =>
    rw [if_neg hsfx] at h
    cases h
  case pos =>
    rw [if_pos hsfx] at h
    unfold hasSuffix at hsfx
    by_cases hlt : (splitOn '.' fqdn).length < (svcLabel :: splitOn '.' clusterDomain).length
    · rw [if_pos hlt] at hsfx
      cases hsfx
    · rw [if_neg hlt] at hsfx
      have hdrop := of_decide_eq_true hsfx
      by_cases h2 : (splitOn '.' fqdn).length = 2 + (svcLabel :: splitOn '.' clusterDomain).length
      · rw [if_pos h2] at h
        rcases hl : splitOn '.' fqdn with _ | ⟨a, tl⟩
        · exact absurd hl (splitOn_ne_nil _ _)
        rcases tl with _ | ⟨b, rest⟩
        · rw [hl] at h2
          simp only [List.length_cons, List.length_nil, List.length_singleton] at h2
          omega
        · rw [hl] at hdrop h2 h
          have hd2 : (a :: b :: rest).length -
              (svcLabel :: splitOn '.' clusterDomain).length = 2 := by
            simp only [List.length_cons] at h2 ⊢
            omega
          rw [hd2] at hdrop
          simp only [List.drop_succ_cons, List.drop_zero] at hdrop
          subst hdrop
          obtain rfl : r = (⟨a, b⟩, []) := (Option.some.inj h).symm
          exact Or.inl ⟨a, b, rfl, rfl⟩
      · rw [if_neg h2] at h
        by_cases h3 : (splitOn '.' fqdn).length =
            3 + (svcLabel :: splitOn '.' clusterDomain).length
        · rw [if_pos h3] at h
          rcases hl : splitOn '.' fqdn with _ | ⟨a, tl⟩
          · exact absurd hl (splitOn_ne_nil _ _)
          rcases tl with _ | ⟨b, tl2⟩
          · rw [hl] at h3
            simp only [List.length_cons, List.length_nil, List.length_singleton] at h3
            omega
          rcases tl2 with _ | ⟨e, rest⟩
          · rw [hl] at h3
            simp only [List.length_cons, List.length_nil] at h3
            omega
          · rw [hl] at hdrop h3 h
            have hd3 : (a :: b :: e :: rest).length -
                (svcLabel :: splitOn '.' clusterDomain).length = 3 := by
              simp only [List.length_cons] at h3 ⊢
              omega
            rw [hd3] at hdrop
            simp only [List.drop_succ_cons, List.drop_zero] at hdrop
            subst hdrop
            obtain rfl : r = (⟨b, e⟩, a) := (Option.some.inj h).symm
            exact Or.inr ⟨a, b, e, rfl, rfl⟩
        · rw [if_neg h3] at h
          cases h

theorem profileID_of_parsed {host clusterDomain : GoString} {service : ServiceID}
    {iid : GoString} (hnc : ':' ∉ host)
    (hp : parseK8sServiceName host clusterDomain = some (service, iid))
    (tok : ContextToken) :
    profileID host tok clusterDomain =
      some { name := fqnOf service clusterDomain,
             ns := if tok.ns ≠ [] then tok.ns else service.ns } := by
  unfold profileID
  rw [getHostAndPort_of_not_mem hnc]
  simp only [hp]

/-! ## The claims -/

/-- C3: for every `Get` call whose authority parses into host and port with
the host a literal IP address, the handler answers the InvalidArgument
"IP queries not supported" error and never reaches the endpoints
subscription. -/
theorem serverGet_rejects_ip (unmarshal : GoString → Option ContextToken)
    (clusterDomain path rawToken : GoString) (hp : HostPort) (ip : IPv4)
    (hparse : getHostAndPort path = some hp) (hip : net_ParseIP hp.host = some ip) :
    serverGet unmarshal clusterDomain path rawToken = GetOutcome.ipQuery ∧
      ∀ nodeName service port instanceID,
        serverGet unmarshal clusterDomain path rawToken ≠
          GetOutcome.subscribe nodeName service port instanceID := by
  have h : serverGet unmarshal clusterDomain path rawToken = GetOutcome.ipQuery := by
    unfold serverGet
    rw [hparse]
    simp only [hip]
  refine ⟨h, fun nodeName service port instanceID => ?_⟩
  rw [h]
  intro hc
  cases hc

/-- Witness for C3 at the concrete authority from the specification,
"10.1.2.3:80". -/
theorem serverGet_rejects_ip_witness :
    serverGet (fun _ => none) ['c']
      ['1', '0', '.', '1', '.', '2', '.', '3', ':', '8', '0'] [] = GetOutcome.ipQuery :=
  (serverGet_rejects_ip (fun _ => none) ['c']
    ['1', '0', '.', '1', '.', '2', '.', '3', ':', '8', '0'] []
    ⟨['1', '0', '.', '1', '.', '2', '.', '3'], 80⟩ ⟨10, 1, 2, 3⟩
    (by decide) (by decide)).1

/-- C10: the `Get` handler is insensitive to the ns field of the context
token: two calls whose raw tokens parse to the same nodeName (the only
token field the endpoint translator receives) produce identical outcomes,
including the subscription installed. -/
theorem serverGet_ns_independent (unmarshal : GoString → Option ContextToken)
    (clusterDomain path rawToken1 rawToken2 : GoString)
    (h : (if rawToken1 = [] then emptyToken
          else parseContextToken unmarshal rawToken1).nodeName =
         (if rawToken2 = [] then emptyToken
          else parseContextToken unmarshal rawToken2).nodeName) :
    serverGet unmarshal clusterDomain path rawToken1 =
      serverGet unmarshal clusterDomain path rawToken2 := by
  unfold serverGet
  cases hgp : getHostAndPort path with
  | none => simp only [hgp]
  | some hp =>
    simp only [hgp]
    cases hip : net_ParseIP hp.host with
    | some ip => simp only [hip]
    | none =>
      simp only [hip]
      cases hsvc : parseK8sServiceName hp.host clusterDomain with
      | none => simp only [hsvc]
      | some pr =>
        obtain ⟨service, iid⟩ := pr
        simp only [hsvc, h]

/-- Witness for C10: two tokens that differ only in the legacy namespace
field lead to the same subscription. -/
theorem serverGet_ns_independent_witness :
    serverGet (fun _ => none) ['c', 'd']
      ['w', '.', 'p', '.', 's', 'v', 'c', '.', 'c', 'd'] ['n', 's', ':', 'a'] =
    serverGet (fun _ => none) ['c', 'd']
      ['w', '.', 'p', '.', 's', 'v', 'c', '.', 'c', 'd'] ['n', 's', ':', 'b'] :=
  serverGet_ns_independent (fun _ => none) ['c', 'd']
    ['w', '.', 'p', '.', 's', 'v', 'c', '.', 'c', 'd']
    ['n', 's', ':', 'a'] ['n', 's', ':', 'b'] (by decide)

theorem podReceivingTraffic_iff (pod : Pod) :
    podReceivingTraffic pod = true ↔
      pod.deletionTimestamp = false ∧ pod.phase ≠ podSucceededPhase ∧
        pod.phase ≠ podFailedPhase := by
  unfold podReceivingTraffic
  constructor
  · intro h
    simp only [Bool.and_eq_true, Bool.not_eq_true'] at h
    obtain ⟨h1, h2⟩ := h
    simp only [Bool.or_eq_false_iff, beq_eq_false_iff_ne, ne_eq] at h2
    exact ⟨h1, h2.1, h2.2⟩
  · intro ⟨h1, h2, h3⟩
    simp only [Bool.and_eq_true, Bool.not_eq_true', Bool.or_eq_false_iff,
      beq_eq_false_iff_ne, ne_eq]
    exact ⟨h1, h2, h3⟩

/-- C9: every pod an IP-index lookup returns is receiving traffic: its phase
is neither Succeeded nor Failed and its deletionTimestamp is unset, both for
`getIndexedPods` on any index and key, and hence for any pod resolved by
`getPodByIP`; non-traffic-receiving pods are filtered at read time. -/
theorem getIndexedPods_receiving (api : K8sAPI) :
    (∀ indexName key pod, pod ∈ getIndexedPods api indexName key →
        podReceivingTraffic pod = true ∧ pod.phase ≠ podSucceededPhase ∧
        pod.phase ≠ podFailedPhase ∧ pod.deletionTimestamp = false) ∧
    (∀ ip port pod, getPodByIP api ip port = Except.ok (some pod) →
        podReceivingTraffic pod = true) := by
  have main : ∀ indexName key pod, pod ∈ getIndexedPods api indexName key →
      podReceivingTraffic pod = true := by
    intro indexName key pod hmem
    exact List.of_mem_filter hmem
  refine ⟨fun indexName key pod hmem => ?_, fun ip port pod h => ?_⟩
  · have hr := main indexName key pod hmem
    have := (podReceivingTraffic_iff pod).1 hr
    exact ⟨hr, this.2.1, this.2.2, this.1⟩
  · simp only [getPodByIP] at h
    rcases hh : getIndexedPods api hostIPIndexName (ip ++ ':' :: natToString port) with
      _ | ⟨p1, _ | ⟨p2, hrest⟩⟩
    · rw [hh] at h
      rcases hg : getIndexedPods api podIPIndexName ip with _ | ⟨q1, _ | ⟨q2, grest⟩⟩
      · rw [hg] at h
        cases h
      · rw [hg] at h
        obtain rfl : q1 = pod := by
          have := Except.ok.inj h
          exact Option.some.inj this
        exact main podIPIndexName ip q1 (by rw [hg]; exact List.mem_cons_self _ _)
      · rw [hg] at h
        cases h
    · rw [hh] at h
      obtain rfl : p1 = pod := by
        have := Except.ok.inj h
        exact Option.some.inj this
      exact main hostIPIndexName (ip ++ ':' :: natToString port) p1
        (by rw [hh]; exact List.mem_cons_self _ _)
    · rw [hh] at h
      cases h

/-- Witness for C9 at a concrete cache: a running pod indexed under an IP is
returned and is receiving traffic. -/
theorem getIndexedPods_receiving_witness :
    podReceivingTraffic ⟨['x'], ['a'], ['R'], false, [], []⟩ = true :=
  (getIndexedPods_receiving
      ⟨fun _ => [], fun _ _ => [⟨['x'], ['a'], ['R'], false, [], []⟩]⟩).1
    ['p'] ['k'] ⟨['x'], ['a'], ['R'], false, [], []⟩ (by decide) |>.1

/-- C8: context-token parsing is total (the function type returns a token
for every input and no error): when the JSON decoder succeeds the decoded
ns and nodeName are used; when it fails, a token of exactly the legacy shape
"ns:namespace" yields that namespace with an empty nodeName, and every
other string yields the empty token. -/
theorem parseContextToken_spec (unmarshal : GoString → Option ContextToken)
    (token : GoString) :
    (∀ t, unmarshal token = some t → parseContextToken unmarshal token = t) ∧
    (unmarshal token = none →
      ((∃ x, token = nsKey ++ ':' :: x ∧ ':' ∉ x ∧
          parseContextToken unmarshal token = ⟨x, []⟩) ∨
       ((¬ ∃ x, token = nsKey ++ ':' :: x ∧ ':' ∉ x) ∧
          parseContextToken unmarshal token = emptyToken))) := by
  constructor
  · intro t ht
    unfold parseContextToken
    rw [ht]
  · intro hn
    have hbase : parseContextToken unmarshal token =
        match splitOn ':' token with
        | [p0, p1] => if p0 = nsKey then ⟨p1, []⟩ else emptyToken
        | _ => emptyToken := by
      unfold parseContextToken
      rw [hn]
    rcases hs : splitOn ':' token with _ | ⟨p0, _ | ⟨p1, _ | ⟨p2, rest⟩⟩⟩
    · exact absurd hs (splitOn_ne_nil ':' token)
    · right
      constructor
      · rintro ⟨x, hx, hxc⟩
        have : splitOn ':' token = [nsKey, x] := by
          rw [hx, splitOn_append x (by decide), splitOn_of_not_mem hxc]
        rw [hs] at this
        cases this
      · rw [hbase, hs]
    · obtain ⟨htok, hp0, hp1⟩ := eq_of_splitOn_eq_pair hs
      by_cases hkey : p0 = nsKey
      · left
        refine ⟨p1, by rw [htok, hkey], hp1, ?_⟩
        rw [hbase, hs]
        exact if_pos hkey
      · right
        constructor
        · rintro ⟨x, hx, hxc⟩
          have : splitOn ':' token = [nsKey, x] := by
            rw [hx, splitOn_append x (by decide), splitOn_of_not_mem hxc]
          rw [hs] at this
          obtain ⟨h1, h2⟩ := List.cons.inj this
          exact hkey h1
        · rw [hbase, hs]
          exact if_neg hkey
    · right
      constructor
      · rintro ⟨x, hx, hxc⟩
        have : splitOn ':' token = [nsKey, x] := by
          rw [hx, splitOn_append x (by decide), splitOn_of_not_mem hxc]
        rw [hs] at this
        cases this
      · rw [hbase, hs]

/-- C1 (amended): IP-to-service and IP-to-pod resolution is total over the
observed cache and never chooses arbitrarily.  getSvcID conflicts with
FailedPrecondition exactly when more than one service claims the cluster IP,
else returns the unique service or a clean miss.  getPodByIP consults the
host-network index first: a unique traffic-receiving match is returned
(regardless of the pod-network index), several conflict; only when the
host-network index is empty is the pod-network index consulted with the
same unique-or-conflict discipline, and both empty is a clean miss. -/
theorem getSvcID_getPodByIP_resolution (api : K8sAPI) (ip : GoString) (port : Nat) :
    ((1 < (api.svcByClusterIP ip).length ∧
        getSvcID api ip = Except.error GrpcCode.failedPrecondition) ∨
     (api.svcByClusterIP ip = [] ∧ getSvcID api ip = Except.ok none) ∨
     (∃ s, api.svcByClusterIP ip = [s] ∧
        getSvcID api ip = Except.ok (some ⟨s.name, s.ns⟩))) ∧
    ((1 < (getIndexedPods api hostIPIndexName (ip ++ ':' :: natToString port)).length ∧
        getPodByIP api ip port = Except.error GrpcCode.failedPrecondition) ∨
     (∃ p, getIndexedPods api hostIPIndexName (ip ++ ':' :: natToString port) = [p] ∧
        getPodByIP api ip port = Except.ok (some p)) ∨
     (getIndexedPods api hostIPIndexName (ip ++ ':' :: natToString port) = [] ∧
        1 < (getIndexedPods api podIPIndexName ip).length ∧
        getPodByIP api ip port = Except.error GrpcCode.failedPrecondition) ∨
     (getIndexedPods api hostIPIndexName (ip ++ ':' :: natToString port) = [] ∧
        ∃ p, getIndexedPods api podIPIndexName ip = [p] ∧
          getPodByIP api ip port = Except.ok (some p)) ∨
     (getIndexedPods api hostIPIndexName (ip ++ ':' :: natToString port) = [] ∧
        getIndexedPods api podIPIndexName ip = [] ∧
        getPodByIP api ip port = Except.ok none)) := by
  constructor
  · have hbs : getSvcID api ip =
        (if 1 < (api.svcByClusterIP ip).length then Except.error GrpcCode.failedPrecondition
         else
           match api.svcByClusterIP ip with
           | [] => Except.ok none
           | s :: _ => Except.ok (some ⟨s.name, s.ns⟩)) := rfl
    rcases hsv : api.svcByClusterIP ip with _ | ⟨s, _ | ⟨s2, srest⟩⟩
    · refine Or.inr (Or.inl ⟨rfl, ?_⟩)
      rw [hbs, hsv]
      rfl
    · refine Or.inr (Or.inr ⟨s, rfl, ?_⟩)
      rw [hbs, hsv]
      rfl
    · refine Or.inl ⟨by simp only [List.length_cons]; omega, ?_⟩
      rw [hbs, hsv, if_pos (by simp only [List.length_cons]; omega)]
  · have hb : getPodByIP api ip port =
        match getIndexedPods api hostIPIndexName (ip ++ ':' :: natToString port) with
        | [p] => Except.ok (some p)
        | _ :: _ :: _ => Except.error GrpcCode.failedPrecondition
        | [] =>
          match getIndexedPods api podIPIndexName ip with
          | [p] => Except.ok (some p)
          | _ :: _ :: _ => Except.error GrpcCode.failedPrecondition
          | [] => Except.ok none := rfl
    rcases hh : getIndexedPods api hostIPIndexName (ip ++ ':' :: natToString port) with
      _ | ⟨p1, _ | ⟨p2, hrest⟩⟩
    · rcases hg : getIndexedPods api podIPIndexName ip with _ | ⟨q1, _ | ⟨q2, grest⟩⟩
      · exact Or.inr (Or.inr (Or.inr (Or.inr ⟨rfl, rfl, by rw [hb, hh, hg]⟩)))
      · exact Or.inr (Or.inr (Or.inr (Or.inl ⟨rfl, q1, rfl, by rw [hb, hh, hg]⟩)))
      · refine Or.inr (Or.inr (Or.inl ⟨rfl, by simp only [List.length_cons]; omega,
          by rw [hb, hh, hg]⟩))
    · exact Or.inr (Or.inl ⟨p1, rfl, by rw [hb, hh]⟩)
    · exact Or.inl ⟨by simp only [List.length_cons]; omega, by rw [hb, hh]⟩

/-- C1 counterexample: with one traffic-receiving pod exposing the
host-network endpoint "1.2.3.4:80" and two traffic-receiving pods sharing
the pod-network IP "1.2.3.4", getPodByIP succeeds with the host-network pod
instead of failing with FailedPrecondition, so a shared pod-network IP does
not by itself fail the lookup. -/
theorem getPodByIP_hostNetworkPrecedence_cex :
    getPodByIP
        ⟨fun _ => [],
         fun indexName key =>
           if indexName = hostIPIndexName then
             (if key = ['1', '.', '2', '.', '3', '.', '4', ':', '8', '0'] then
               [⟨['x'], ['h'], ['R'], false, [], []⟩] else [])
           else
             (if key = ['1', '.', '2', '.', '3', '.', '4'] then
               [⟨['x'], ['a'], ['R'], false, [], []⟩, ⟨['x'], ['b'], ['R'], false, [], []⟩]
             else [])⟩
        ['1', '.', '2', '.', '3', '.', '4'] 80 =
      Except.ok (some ⟨['x'], ['h'], ['R'], false, [], []⟩) ∧
    1 < (getIndexedPods
        ⟨fun _ => [],
         fun indexName key =>
           if indexName = hostIPIndexName then
             (if key = ['1', '.', '2', '.', '3', '.', '4', ':', '8', '0'] then
               [⟨['x'], ['h'], ['R'], false, [], []⟩] else [])
           else
             (if key = ['1', '.', '2', '.', '3', '.', '4'] then
               [⟨['x'], ['a'], ['R'], false, [], []⟩, ⟨['x'], ['b'], ['R'], false, [], []⟩]
             else [])⟩
        podIPIndexName ['1', '.', '2', '.', '3', '.', '4']).length := by
  constructor
  · decide
  · decide

/-- C2 (amended): a GetProfile over a literal IP that resolves to neither a
service nor a pod emits exactly one profile message with no endpoint and no
Server subscription, whose opaqueProtocol bit equals membership of the
requested port in the default opaque-ports set (UpdateProtocol(true) for a
default opaque port, UpdateProtocol(false) otherwise). -/
theorem getProfile_unknownIP_spec (unmarshal : GoString → Option ContextToken)
    (parsePorts : GoString → List Container → List GoString)
    (addressOpaque : Pod → Nat → Bool) (defaults : List Nat) (api : K8sAPI)
    (clusterDomain path rawToken : GoString) (hp : HostPort) (ip : IPv4)
    (hparse : getHostAndPort path = some hp)
    (hip : net_ParseIP hp.host = some ip)
    (hsvc : getSvcID api (ipString ip) = Except.ok none)
    (hpod : getPodByIP api (ipString ip) hp.port = Except.ok none) :
    serverGetProfile unmarshal parsePorts addressOpaque defaults api clusterDomain
        path rawToken =
      ProfileOutcome.podFlow ⟨none, [defaults.contains hp.port], none⟩ := by
  unfold serverGetProfile
  rw [hparse]
  simp only [hip, hsvc, hpod]
  have hpt : podTail parsePorts addressOpaque defaults none hp.port =
      if defaults.contains hp.port then ProfileOutcome.podFlow ⟨none, [true], none⟩
      else ProfileOutcome.podFlow ⟨none, [false], none⟩ := rfl
  rw [hpt]
  cases hc : defaults.contains hp.port with
  | true => rw [if_pos rfl]
  | false => exact if_neg Bool.false_ne_true

/-- Witness for C2 at a concrete input whose port is not a default opaque
port: the single message carries opaque=false, no endpoint, no Server
subscription. -/
theorem getProfile_unknownIP_spec_witness :
    serverGetProfile (fun _ => none) (fun _ _ => []) (fun _ _ => false) []
        ⟨fun _ => [], fun _ _ => []⟩ ['c']
        ['1', '0', '.', '0', '.', '0', '.', '1', ':', '8', '0'] [] =
      ProfileOutcome.podFlow ⟨none, [false], none⟩ := by
  have h := getProfile_unknownIP_spec (fun _ => none) (fun _ _ => []) (fun _ _ => false)
    [] ⟨fun _ => [], fun _ _ => []⟩ ['c']
    ['1', '0', '.', '0', '.', '0', '.', '1', ':', '8', '0'] []
    ⟨['1', '0', '.', '0', '.', '0', '.', '1'], 80⟩ ⟨10, 0, 0, 1⟩
    (by decide) (by decide) (by decide) (by decide)
  exact h

/-- C2 counterexample: a server whose default opaque-ports set contains the
requested port (3306) answers an unknown IP with UpdateProtocol(true), not
the claimed UpdateProtocol(false). -/
theorem getProfile_unknownIP_defaultOpaque_cex :
    serverGetProfile (fun _ => none) (fun _ _ => []) (fun _ _ => false) [3306]
        ⟨fun _ => [], fun _ _ => []⟩ ['c']
        ['1', '0', '.', '0', '.', '0', '.', '1', ':', '3', '3', '0', '6'] [] =
      ProfileOutcome.podFlow ⟨none, [true], none⟩ ∧
    serverGetProfile (fun _ => none) (fun _ _ => []) (fun _ _ => false) [3306]
        ⟨fun _ => [], fun _ _ => []⟩ ['c']
        ['1', '0', '.', '0', '.', '0', '.', '1', ':', '3', '3', '0', '6'] [] ≠
      ProfileOutcome.podFlow ⟨none, [false], none⟩ := by
  constructor
  · decide
  · decide

/-- C7: for a GetProfile over a plain service name, the profile IDs built by
profileID carry name service.namespace.svc.clusterDomain; the primary
subscription exists exactly when the request carried a nonempty context
token and uses the token namespace when that is nonempty (else the service
namespace), while the secondary subscription is unconditional and uses the
service namespace. -/
theorem getProfile_serviceName_spec (unmarshal : GoString → Option ContextToken)
    (parsePorts : GoString → List Container → List GoString)
    (addressOpaque : Pod → Nat → Bool) (defaults : List Nat) (api : K8sAPI)
    (clusterDomain path rawToken : GoString) (hp : HostPort) (service : ServiceID)
    (hparse : getHostAndPort path = some hp)
    (hip : net_ParseIP hp.host = none)
    (hsvc : parseK8sServiceName hp.host clusterDomain = some (service, [])) :
    serverGetProfile unmarshal parsePorts addressOpaque defaults api clusterDomain
        path rawToken =
      ProfileOutcome.nameFlow
        { fqn := hp.host, port := hp.port, opaqueSub := service,
          primarySub :=
            if rawToken = [] then none
            else some
              { name := fqnOf service clusterDomain,
                ns := if (parseContextToken unmarshal rawToken).ns ≠ [] then
                        (parseContextToken unmarshal rawToken).ns
                      else service.ns },
          secondarySub := { name := fqnOf service clusterDomain, ns := service.ns } } := by
  have hnc : ':' ∉ hp.host := getHostAndPort_host_no_colon hparse
  unfold serverGetProfile
  rw [hparse]
  simp only [hip, hsvc]
  unfold nameTail
  by_cases ht : rawToken = []
  · subst ht
    simp [profileID_of_parsed hnc hsvc (⟨[], []⟩ : ContextToken), emptyToken]
  · simp [ht, profileID_of_parsed hnc hsvc (parseContextToken unmarshal rawToken),
      profileID_of_parsed hnc hsvc (⟨[], []⟩ : ContextToken), emptyToken]

/-- Witness for C7: a concrete lookup of web.prod.svc.cluster.local:8080
with legacy token ns:caller subscribes primary under namespace caller and
secondary under namespace prod. -/
theorem getProfile_serviceName_spec_witness :
    serverGetProfile (fun _ => none) (fun _ _ => []) (fun _ _ => false) []
        ⟨fun _ => [], fun _ _ => []⟩
        ['c', 'l', 'u', 's', 't', 'e', 'r', '.', 'l', 'o', 'c', 'a', 'l']
        ['w', 'e', 'b', '.', 'p', 'r', 'o', 'd', '.', 's', 'v', 'c', '.',
         'c', 'l', 'u', 's', 't', 'e', 'r', '.', 'l', 'o', 'c', 'a', 'l',
         ':', '8', '0', '8', '0']
        ['n', 's', ':', 'c', 'a', 'l', 'l', 'e', 'r'] =
      ProfileOutcome.nameFlow
        { fqn := ['w', 'e', 'b', '.', 'p', 'r', 'o', 'd', '.', 's', 'v', 'c', '.',
                  'c', 'l', 'u', 's', 't', 'e', 'r', '.', 'l', 'o', 'c', 'a', 'l'],
          port := 8080,
          opaqueSub := ⟨['w', 'e', 'b'], ['p', 'r', 'o', 'd']⟩,
          primarySub := some
            { name := fqnOf ⟨['w', 'e', 'b'], ['p', 'r', 'o', 'd']⟩
                ['c', 'l', 'u', 's', 't', 'e', 'r', '.', 'l', 'o', 'c', 'a', 'l'],
              ns := ['c', 'a', 'l', 'l', 'e', 'r'] },
          secondarySub :=
            { name := fqnOf ⟨['w', 'e', 'b'], ['p', 'r', 'o', 'd']⟩
                ['c', 'l', 'u', 's', 't', 'e', 'r', '.', 'l', 'o', 'c', 'a', 'l'],
              ns := ['p', 'r', 'o', 'd'] } } := by
  have h := getProfile_serviceName_spec (fun _ => none) (fun _ _ => []) (fun _ _ => false)
    [] ⟨fun _ => [], fun _ _ => []⟩
    ['c', 'l', 'u', 's', 't', 'e', 'r', '.', 'l', 'o', 'c', 'a', 'l']
    ['w', 'e', 'b', '.', 'p', 'r', 'o', 'd', '.', 's', 'v', 'c', '.',
     'c', 'l', 'u', 's', 't', 'e', 'r', '.', 'l', 'o', 'c', 'a', 'l',
     ':', '8', '0', '8', '0']
    ['n', 's', ':', 'c', 'a', 'l', 'l', 'e', 'r']
    ⟨['w', 'e', 'b', '.', 'p', 'r', 'o', 'd', '.', 's', 'v', 'c', '.',
      'c', 'l', 'u', 's', 't', 'e', 'r', '.', 'l', 'o', 'c', 'a', 'l'], 8080⟩
    ⟨['w', 'e', 'b'], ['p', 'r', 'o', 'd']⟩
    (by decide) (by decide) (by decide)
  rw [h]
  decide

theorem natToString_no_colon (n : Nat) : ':' ∉ natToString n := by
  intro hmem
  have := natToString_digits (n := n) ':' hmem
  exact absurd this (by decide)

/-- C4: the authority round-trip.  For every valid tuple of service,
namespace, cluster domain (nonempty labels, no dot in the two leading
labels, no colon anywhere) and port in [1, 65535], formatting the authority
service.namespace.svc.clusterDomain:port and parsing it back through
getHostAndPort and parseK8sServiceName recovers exactly the service name,
namespace and port, with an empty instance ID. -/
theorem authority_roundTrip (service ns clusterDomain : GoString) (port : Nat)
    (hs : service ≠ []) (hn : ns ≠ []) (hc : clusterDomain ≠ [])
    (hsd : '.' ∉ service) (hnd : '.' ∉ ns)
    (hsc : ':' ∉ service) (hnc : ':' ∉ ns) (hcc : ':' ∉ clusterDomain)
    (hp1 : 1 ≤ port) (hp2 : port ≤ 65535) :
    getHostAndPort
        ((service ++ '.' :: (ns ++ '.' :: (svcLabel ++ '.' :: clusterDomain))) ++
          ':' :: natToString port) =
      some ⟨service ++ '.' :: (ns ++ '.' :: (svcLabel ++ '.' :: clusterDomain)), port⟩ ∧
    parseK8sServiceName (service ++ '.' :: (ns ++ '.' :: (svcLabel ++ '.' :: clusterDomain)))
        clusterDomain = some (⟨service, ns⟩, []) := by
  set host := service ++ '.' :: (ns ++ '.' :: (svcLabel ++ '.' :: clusterDomain)) with hhost
  have hhc : ':' ∉ host := by
    rw [hhost]
    intro hmem
    simp only [List.mem_append, List.mem_cons] at hmem
    rcases hmem with h | h | h | h | h | h | h
    · exact hsc h
    · exact absurd h (by decide)
    · exact hnc h
    · exact absurd h (by decide)
    · exact absurd h (by decide)
    · exact absurd h (by decide)
    · exact hcc h
  have hsplit : splitOn ':' (host ++ ':' :: natToString port) = [host, natToString port] := by
    rw [splitOn_append (natToString port) hhc, splitOn_of_not_mem (natToString_no_colon port)]
  constructor
  · have hred : getHostAndPort (host ++ ':' :: natToString port) =
        if (port : Int) ≤ 0 ∨ 65535 < (port : Int) then none
        else some ⟨host, ((port : Int)).toNat⟩ := by
      rw [getHostAndPort_eq_pair hsplit, strconv_Atoi_natToString]
    rw [hred, if_neg (by omega)]
    simp
  · have hsplit2 : splitOn '.' host = service :: ns :: svcLabel :: splitOn '.' clusterDomain := by
      rw [hhost, splitOn_append _ hsd, splitOn_append _ hnd,
        splitOn_append _ (by decide : '.' ∉ svcLabel)]
    exact parseK8sServiceName_two hsplit2

/-- Witness for C4 at the tuple (web, prod, cluster.local, 8080). -/
theorem authority_roundTrip_witness :
    getHostAndPort
        ((['w', 'e', 'b'] ++ '.' :: (['p', 'r', 'o', 'd'] ++ '.' :: (svcLabel ++ '.' ::
          ['c', 'l', 'u', 's', 't', 'e', 'r', '.', 'l', 'o', 'c', 'a', 'l']))) ++
          ':' :: natToString 8080) =
      some ⟨['w', 'e', 'b'] ++ '.' :: (['p', 'r', 'o', 'd'] ++ '.' :: (svcLabel ++ '.' ::
        ['c', 'l', 'u', 's', 't', 'e', 'r', '.', 'l', 'o', 'c', 'a', 'l'])), 8080⟩ ∧
    parseK8sServiceName
        (['w', 'e', 'b'] ++ '.' :: (['p', 'r', 'o', 'd'] ++ '.' :: (svcLabel ++ '.' ::
          ['c', 'l', 'u', 's', 't', 'e', 'r', '.', 'l', 'o', 'c', 'a', 'l'])))
        ['c', 'l', 'u', 's', 't', 'e', 'r', '.', 'l', 'o', 'c', 'a', 'l'] =
      some (⟨['w', 'e', 'b'], ['p', 'r', 'o', 'd']⟩, []) :=
  authority_roundTrip ['w', 'e', 'b'] ['p', 'r', 'o', 'd']
    ['c', 'l', 'u', 's', 't', 'e', 'r', '.', 'l', 'o', 'c', 'a', 'l'] 8080
    (by decide) (by decide) (by decide) (by decide) (by decide)
    (by decide) (by decide) (by decide) (by decide) (by decide)

/-- C5: getHostAndPort fails exactly when the authority has at least two
colons, or has exactly one colon and the port part does not satisfy Atoi
(an optionally signed decimal integer) with value in [1, 65535]; an
authority without a colon keeps the whole string as host and defaults the
port to 80; with a valid port part it returns the split host and the parsed
value. -/
theorem getHostAndPort_spec (authority : GoString) :
    (getHostAndPort authority = none ↔
       2 ≤ authority.count ':' ∨
       ∃ h p, authority = h ++ ':' :: p ∧ ':' ∉ h ∧ ':' ∉ p ∧
         ¬ ∃ n : Int, strconv_Atoi p = some n ∧ 1 ≤ n ∧ n ≤ 65535) ∧
    (':' ∉ authority → getHostAndPort authority = some ⟨authority, 80⟩) ∧
    (∀ h p (n : Int), authority = h ++ ':' :: p → ':' ∉ h → ':' ∉ p →
       strconv_Atoi p = some n → 1 ≤ n → n ≤ 65535 →
       getHostAndPort authority = some ⟨h, n.toNat⟩) := by
  refine ⟨⟨?_, ?_⟩, fun hna => getHostAndPort_of_not_mem hna, ?_⟩
  · intro hnone
    rcases hs : splitOn ':' authority with _ | ⟨x, _ | ⟨y, _ | ⟨z, rest⟩⟩⟩
    · exact absurd hs (splitOn_ne_nil ':' authority)
    · rw [getHostAndPort_eq_single hs] at hnone
      cases hnone
    · right
      obtain ⟨heq, hx, hy⟩ := eq_of_splitOn_eq_pair hs
      refine ⟨x, y, heq, hx, hy, ?_⟩
      rintro ⟨n, ha, h1, h2⟩
      have hred : getHostAndPort authority =
          if n ≤ 0 ∨ 65535 < n then none else some ⟨x, n.toNat⟩ := by
        rw [getHostAndPort_eq_pair hs, ha]
      rw [hred, if_neg (by omega)] at hnone
      cases hnone
    · left
      have hlen := length_splitOn ':' authority
      rw [hs] at hlen
      simp only [List.length_cons] at hlen
      omega
  · intro hdisj
    rcases hdisj with hcount | ⟨h, p, heq, hh, hpp, hno⟩
    · have hlen := length_splitOn ':' authority
      rcases hs : splitOn ':' authority with _ | ⟨x, _ | ⟨y, _ | ⟨z, rest⟩⟩⟩
      · exact absurd hs (splitOn_ne_nil ':' authority)
      · rw [hs] at hlen
        simp only [List.length_cons, List.length_nil] at hlen
        omega
      · rw [hs] at hlen
        simp only [List.length_cons, List.length_nil] at hlen
        omega
      · exact getHostAndPort_eq_many hs
    · have hs : splitOn ':' authority = [h, p] := by
        rw [heq, splitOn_append p hh, splitOn_of_not_mem hpp]
      rcases ha : strconv_Atoi p with _ | n
      · rw [getHostAndPort_eq_pair hs, ha]
      · have hr : n ≤ 0 ∨ 65535 < n := by
          by_contra hcon
          push_neg at hcon
          exact hno ⟨n, ha, by omega, by omega⟩
        have hred : getHostAndPort authority =
            if n ≤ 0 ∨ 65535 < n then none else some ⟨h, n.toNat⟩ := by
          rw [getHostAndPort_eq_pair hs, ha]
        rw [hred, if_pos hr]
  · intro h p n heq hh hpp ha h1 h2
    have hs : splitOn ':' authority = [h, p] := by
      rw [heq, splitOn_append p hh, splitOn_of_not_mem hpp]
    have hred : getHostAndPort authority =
        if n ≤ 0 ∨ 65535 < n then none else some ⟨h, n.toNat⟩ := by
      rw [getHostAndPort_eq_pair hs, ha]
    rw [hred, if_neg (by omega)]

/-- Witness for C5: the default-port clause evaluated at the authority
"web" and the parsed-port clause evaluated at "web:8080". -/
theorem getHostAndPort_spec_witness :
    getHostAndPort ['w', 'e', 'b'] = some ⟨['w', 'e', 'b'], 80⟩ ∧
    getHostAndPort ['w', 'e', 'b', ':', '8', '0', '8', '0'] =
      some ⟨['w', 'e', 'b'], (8080 : Int).toNat⟩ :=
  ⟨(getHostAndPort_spec ['w', 'e', 'b']).2.1 (by decide),
   (getHostAndPort_spec ['w', 'e', 'b', ':', '8', '0', '8', '0']).2.2
     ['w', 'e', 'b'] ['8', '0', '8', '0'] 8080
     (by decide) (by decide) (by decide) (by decide) (by decide) (by decide)⟩

/-- C6: for a non-IP host, parseK8sServiceName accepts exactly the
hostnames made of one or two leading dot-free labels followed by "svc" and
then the cluster-domain labels: the two-label shape service.namespace
yields an empty instance ID, the three-label shape
instance.service.namespace yields that instance ID, and every other shape
is rejected (the handlers surface the rejection as InvalidArgument). -/
theorem parseK8sServiceName_shapes (fqdn clusterDomain : GoString)
    (r : ServiceID × GoString) :
    parseK8sServiceName fqdn clusterDomain = some r ↔
      ((∃ s n, '.' ∉ s ∧ '.' ∉ n ∧
          fqdn = s ++ '.' :: (n ++ '.' :: (svcLabel ++ '.' :: clusterDomain)) ∧
          r = (⟨s, n⟩, [])) ∨
       (∃ i s n, '.' ∉ i ∧ '.' ∉ s ∧ '.' ∉ n ∧
          fqdn = i ++ '.' :: (s ++ '.' :: (n ++ '.' :: (svcLabel ++ '.' :: clusterDomain))) ∧
          r = (⟨s, n⟩, i))) := by
  constructor
  · intro h
    rcases parseK8sServiceName_inv h with ⟨s, n, hsplit, hr⟩ | ⟨i, s, n, hsplit, hr⟩
    · left
      have hj := joinSep_splitOn '.' fqdn
      rw [hsplit, joinSep_cons _ _ (by simp), joinSep_cons _ _ (by simp),
        joinSep_cons _ _ (splitOn_ne_nil '.' clusterDomain),
        joinSep_splitOn] at hj
      refine ⟨s, n, ?_, ?_, hj.symm, hr⟩
      · exact not_mem_of_mem_splitOn (by rw [hsplit]; simp)
      · exact not_mem_of_mem_splitOn (by rw [hsplit]; simp)
    · right
      have hj := joinSep_splitOn '.' fqdn
      rw [hsplit, joinSep_cons _ _ (by simp), joinSep_cons _ _ (by simp),
        joinSep_cons _ _ (by simp),
        joinSep_cons _ _ (splitOn_ne_nil '.' clusterDomain),
        joinSep_splitOn] at hj
      refine ⟨i, s, n, ?_, ?_, ?_, hj.symm, hr⟩
      · exact not_mem_of_mem_splitOn (by rw [hsplit]; simp)
      · exact not_mem_of_mem_splitOn (by rw [hsplit]; simp)
      · exact not_mem_of_mem_splitOn (by rw [hsplit]; simp)
  · rintro (⟨s, n, hsd, hnd, heq, hr⟩ | ⟨i, s, n, hid, hsd, hnd, heq, hr⟩)
    · subst hr
      exact parseK8sServiceName_two (by
        rw [heq, splitOn_append _ hsd, splitOn_append _ hnd,
          splitOn_append _ (by decide : '.' ∉ svcLabel)])
    · subst hr
      exact parseK8sServiceName_three (by
        rw [heq, splitOn_append _ hid, splitOn_append _ hsd, splitOn_append _ hnd,
          splitOn_append _ (by decide : '.' ∉ svcLabel)])
